import Mathlib

/-!
Verification of the Job-Lander browser extension content scripts.

The JavaScript sources are shallowly embedded: DOM-free logic (string
normalisation, hashing, classification, merging, truncation, threshold
bookkeeping, the auto-fill loop) is translated into executable Lean
definitions; DOM reads and network calls appear as explicit parameters
(candidate lists, outcome oracles) so that every function is pure and
every run is determined by its inputs.
-/

namespace JobLander

/-! ## JavaScript string primitives

`jsTrim` models `String.prototype.trim`, `jsIncludes` models
`String.prototype.includes`, `jsToLower` models `toLowerCase` (the
sources only ever lower-case ASCII selector/keyword text). -/

/-- Characters treated as whitespace by `String.prototype.trim` (the
subset that can occur in the embedded programs). -/
def jsWhitespace (c : Char) : Bool :=
  c = ' ' || c = '\t' || c = '\n' || c = '\r' || c = '\x0b' || c = '\x0c'

/-- Drop leading and trailing whitespace from a character list. -/
def trimChars (l : List Char) : List Char :=
  ((l.dropWhile jsWhitespace).reverse.dropWhile jsWhitespace).reverse

/-- `s.trim()` in JavaScript. -/
def jsTrim (s : String) : String :=
  String.mk (trimChars s.data)

/-- Whether `pat` is a prefix of `s` (on character lists). -/
def startsWithChars : List Char → List Char → Bool
  | _, [] => true
  | [], _ :: _ => false
  | x :: xs, p :: ps => x = p && startsWithChars xs ps

/-- Whether `pat` occurs as a contiguous run inside `s`. -/
def containsSub : List Char → List Char → Bool
  | [], pat => pat.isEmpty
  | x :: xs, pat => startsWithChars (x :: xs) pat || containsSub xs pat

/-- `s.includes(pat)` in JavaScript: substring containment. -/
def jsIncludes (s pat : String) : Bool :=
  containsSub s.data pat.data

/-- `s.toLowerCase()` in JavaScript (ASCII-adequate). -/
def jsToLower (s : String) : String :=
  String.mk (s.data.map Char.toLower)

/-! ## Association lists modelling JavaScript `Map` -/

/-- `map.get(k)` — first binding wins (JS maps have unique keys). -/
def assocGet (l : List (String × α)) (k : String) : Option α :=
  match l with
  | [] => none
  | (k', v) :: t => if k' = k then some v else assocGet t k

/-- `map.set(k, v)` — replace an existing binding, else append. -/
def assocSet (l : List (String × α)) (k : String) (v : α) : List (String × α) :=
  match l with
  | [] => [(k, v)]
  | (k', v') :: t => if k' = k then (k, v) :: t else (k', v') :: assocSet t k v

/-- `map.delete(k)`. -/
def assocDelete (l : List (String × α)) (k : String) : List (String × α) :=
  l.filter (fun p => !(p.1 == k))

/-- `set.add(x)` for a JS `Set` represented as a duplicate-free list. -/
def setAdd (l : List String) (x : String) : List String :=
  if x ∈ l then l else x :: l

theorem assocGet_set_self (l : List (String × α)) (k : String) (v : α) :
    assocGet (assocSet l k v) k = some v := by
  induction l with
  | nil => simp [assocGet, assocSet]
  | cons p t ih =>
    obtain ⟨k', v'⟩ := p
    by_cases h : k' = k
    · simp [assocGet, assocSet, h]
    · simp [assocGet, assocSet, h, ih]

theorem assocGet_set_ne (l : List (String × α)) (k k' : String) (v : α)
    (h : k' ≠ k) : assocGet (assocSet l k v) k' = assocGet l k' := by
  induction l with
  | nil => simp [assocGet, assocSet, Ne.symm h]
  | cons p t ih =>
    obtain ⟨k₀, v₀⟩ := p
    by_cases h₀ : k₀ = k
    · subst h₀
      simp [assocGet, assocSet, Ne.symm h, h]
    · by_cases h₁ : k₀ = k'
      · simp [assocGet, assocSet, h₀, h₁, h]
      · simp [assocGet, assocSet, h₀, h₁, ih]

theorem assocGet_delete_self (l : List (String × α)) (k : String) :
    assocGet (assocDelete l k) k = none := by
  induction l with
  | nil => simp [assocGet, assocDelete]
  | cons p t ih =>
    obtain ⟨k₀, v₀⟩ := p
    by_cases h : k₀ = k
    · simpa [assocDelete, List.filter_cons, h] using ih
    · simpa [assocDelete, List.filter_cons, h, assocGet] using ih

theorem assocGet_delete_ne (l : List (String × α)) (k k' : String)
    (h : k' ≠ k) : assocGet (assocDelete l k) k' = assocGet l k' := by
  induction l with
  | nil => simp [assocGet, assocDelete]
  | cons p t ih =>
    obtain ⟨k₀, v₀⟩ := p
    by_cases h₀ : k₀ = k
    · subst h₀
      simpa [assocDelete, List.filter_cons, assocGet, Ne.symm h] using ih
    · by_cases h₁ : k₀ = k'
      · simp [assocDelete, List.filter_cons, assocGet, h₀, h₁, h]
      · simpa [assocDelete, List.filter_cons, assocGet, h₀, h₁] using ih

/-! ## DataCollector / ApplicationTracker (content-scripts/dataCollector.js,
applicationTracker.js)

The DOM is abstracted away: a detection scan receives the list of
`(label text, current input value)` pairs that `extractQuestionFromInput`
produced for the page's inputs, and the regex-based `isValidQuestion`
filter is a `String → Bool` parameter (none of the verified properties
depend on which texts it accepts).  The tracker's `applicationData.questions`
array always aliases the question objects held in
`detectedQuestions` (it is re-synced by `updateTracker` after every
mutation), so a single store `detectedQuestions` represents both. -/

/-- `collapseRunsAux p rep l inRun` maps every maximal run of characters
satisfying `p` to the single character `rep` (JS `replace(/X+/g, rep)`). -/
def collapseRunsAux (p : Char → Bool) (rep : Char) : List Char → Bool → List Char
  | [], _ => []
  | c :: rest, inRun =>
    if p c then
      if inRun then collapseRunsAux p rep rest true
      else rep :: collapseRunsAux p rep rest true
    else c :: collapseRunsAux p rep rest false

def collapseRuns (p : Char → Bool) (rep : Char) (l : List Char) : List Char :=
  collapseRunsAux p rep l false

/-- The punctuation class `[*:?!.]` of `normalizeQuestionText`. -/
def isNormPunct (c : Char) : Bool :=
  c = '*' || c = ':' || c = '?' || c = '!' || c = '.'

/-- `DataCollector.normalizeQuestionText`: lower-case, trim, collapse
whitespace, strip `[*:?!.]`, turn whitespace runs into `_`, trim. -/
def normalizeQuestionText (text : String) : String :=
  if text = "" then ""
  else
    let l1 := text.data.map Char.toLower
    let l2 := trimChars l1
    let l3 := collapseRuns jsWhitespace ' ' l2
    let l4 := l3.filter (fun c => !(isNormPunct c))
    let l5 := collapseRuns jsWhitespace '_' l4
    String.mk (trimChars l5)

/-- JS `ToInt32` (the `& hash` / `<< 5` coercions). -/
def toInt32 (x : Int) : Int :=
  ((x + 2 ^ 31) % 2 ^ 32) - 2 ^ 31

/-- One step of `generateQuestionId`'s rolling hash:
`hash = (((hash << 5) - hash) + charCode) & hash-width`. -/
def hashStep (h : Int) (c : Char) : Int :=
  toInt32 (toInt32 (h * 32) - h + (c.toNat : Int))

/-- `DataCollector.generateQuestionId`: 32-bit rolling hash of the text,
absolute value, rendered in decimal. -/
def generateQuestionId (text : String) : String :=
  (text.data.foldl hashStep 0).natAbs.repr

/-- A detected question (the fields the verified logic touches). -/
structure Question where
  id : String
  text : String
  normalizedText : String
  answer : String
  answered : Bool
deriving DecidableEq

/-- Joint state of the `DataCollector` and the tracker data it mutates:
the live question store, the deletion blacklist, and the tracker's
`applicationData.userAnswers` map (question text → answer). -/
structure DCState where
  isTracking : Bool
  detectedQuestions : List (String × Question)
  deletedQuestionLabels : List String
  userAnswers : List (String × String)
deriving DecidableEq

/-- What `extractQuestionFromInput` yields for one input element:
the question text and the input's current value. -/
structure ScanCandidate where
  text : String
  value : String
deriving DecidableEq

/-- Processing of one input element inside `scanForQuestions`: validity
filter, blacklist check, id hashing, registration if the id is new. -/
def scanStep (valid : String → Bool) (s : DCState) (c : ScanCandidate) : DCState :=
  if valid c.text then
    let normalizedText := normalizeQuestionText c.text
    if normalizedText ∈ s.deletedQuestionLabels then s
    else
      let questionId := generateQuestionId c.text
      match assocGet s.detectedQuestions questionId with
      | some _ => s
      | none =>
        let q : Question :=
          { id := questionId, text := c.text, normalizedText := normalizedText,
            answer := c.value, answered := false }
        { s with detectedQuestions := assocSet s.detectedQuestions questionId q }
  else s

/-- `DataCollector.scanForQuestions` over the candidate list the DOM
query produced. -/
def scanForQuestions (s : DCState) (cands : List ScanCandidate)
    (valid : String → Bool) : DCState :=
  if s.isTracking then cands.foldl (scanStep valid) s else s

/-- `DataCollector.removeQuestion`: blacklist the normalized text, drop
the question from the live set, purge its `userAnswers` entry. -/
def removeQuestion (s : DCState) (questionId : String) : DCState :=
  match assocGet s.detectedQuestions questionId with
  | none => s
  | some q =>
    let normalizedText :=
      if q.normalizedText ≠ "" then q.normalizedText
      else normalizeQuestionText q.text
    { s with
      deletedQuestionLabels := setAdd s.deletedQuestionLabels normalizedText,
      detectedQuestions := assocDelete s.detectedQuestions questionId,
      userAnswers := assocDelete s.userAnswers q.text }

/-- `DataCollector.stopQuestionTracking`: stop and clear the blacklist. -/
def stopQuestionTracking (s : DCState) : DCState :=
  { s with isTracking := false, deletedQuestionLabels := [] }

/-- `DataCollector.startQuestionTracking`: no-op while tracking,
otherwise start tracking and run the initial scan. -/
def startQuestionTracking (s : DCState) (cands : List ScanCandidate)
    (valid : String → Bool) : DCState :=
  if s.isTracking then s
  else scanForQuestions { s with isTracking := true } cands valid

/-- `DataCollector.updateQuestionAnswer`: store the answer on the
question; promote it into `userAnswers` when it has ≥ 100 characters,
otherwise delete any entry under the question's text. -/
def updateQuestionAnswer (s : DCState) (questionId newAnswer : String) : DCState :=
  match assocGet s.detectedQuestions questionId with
  | none => s
  | some q =>
    let q1 : Question := { q with answer := newAnswer }
    let s1 := { s with detectedQuestions := assocSet s.detectedQuestions questionId q1 }
    if newAnswer ≠ "" ∧ 100 ≤ newAnswer.length then
      { s1 with userAnswers := assocSet s1.userAnswers q.text newAnswer }
    else
      { s1 with userAnswers := assocDelete s1.userAnswers q.text }

/-- `ApplicationTracker.updateQuestionAnswer`: store into `userAnswers`
only when the answer has ≥ 100 characters (the lookup runs over the
tracker's question list, which aliases the live store). -/
def trackerUpdateQuestionAnswer (s : DCState) (questionId answer : String) : DCState :=
  if 100 ≤ answer.length then
    match assocGet s.detectedQuestions questionId with
    | some q => { s with userAnswers := assocSet s.userAnswers q.text answer }
    | none => s
  else s

/-- `DataCollector.handleInputChange`: trim the input's value and, only
when the result is strictly longer than 100 characters, mark the
question answered, store the value, and forward it to the tracker.
`questionId?` models the outcome of `findQuestionForInput`. -/
def handleInputChange (s : DCState) (questionId? : Option String)
    (rawValue : String) : DCState :=
  let value := jsTrim rawValue
  if 100 < value.length then
    match questionId? with
    | none => s
    | some questionId =>
      match assocGet s.detectedQuestions questionId with
      | none => s
      | some q =>
        let q1 : Question := { q with answered := true, answer := value }
        let dq1 := assocSet s.detectedQuestions questionId q1
        let s1 := { s with detectedQuestions := dq1 }
        trackerUpdateQuestionAnswer s1 questionId value
  else s

/-- `DataCollector.updateQuestionText`: rename a question and migrate
its `userAnswers` entry to the new key. -/
def updateQuestionText (s : DCState) (questionId newText : String) : DCState :=
  match assocGet s.detectedQuestions questionId with
  | none => s
  | some q =>
    let q1 : Question := { q with text := newText }
    let s1 := { s with detectedQuestions := assocSet s.detectedQuestions questionId q1 }
    match assocGet s.userAnswers q.text with
    | some ans =>
      { s1 with userAnswers := assocSet (assocDelete s1.userAnswers q.text) newText ans }
    | none => s1

/-- The operations a tracking session can perform on the collector
state, in the order the page delivers them. -/
inductive DCOp where
  | scan (cands : List ScanCandidate) (valid : String → Bool)
  | remove (questionId : String)
  | updateAnswer (questionId newAnswer : String)
  | inputChange (questionId? : Option String) (rawValue : String)
  | updateText (questionId newText : String)
  | stop
  | start (cands : List ScanCandidate) (valid : String → Bool)

def DCOp.isStop : DCOp → Bool
  | .stop => true
  | _ => false

def dcStep (s : DCState) : DCOp → DCState
  | .scan cands valid => scanForQuestions s cands valid
  | .remove questionId => removeQuestion s questionId
  | .updateAnswer questionId newAnswer => updateQuestionAnswer s questionId newAnswer
  | .inputChange questionId? rawValue => handleInputChange s questionId? rawValue
  | .updateText questionId newText => updateQuestionText s questionId newText
  | .stop => stopQuestionTracking s
  | .start cands valid => startQuestionTracking s cands valid

/-! ## Helper lemmas about the collector's state machine -/

theorem length_ge_100_ne_empty (a : String) (h : 100 ≤ a.length) : a ≠ "" := by
  intro he
  subst he
  simp [String.length] at h

theorem setAdd_self_mem (l : List String) (x : String) : x ∈ setAdd l x := by
  unfold setAdd
  split
  · assumption
  · exact List.mem_cons_self x l

theorem setAdd_mem (l : List String) (x a : String) (h : a ∈ l) : a ∈ setAdd l x := by
  unfold setAdd
  split
  · exact h
  · exact List.mem_cons_of_mem x h

theorem scanStep_blacklist (valid : String → Bool) (s : DCState) (c : ScanCandidate) :
    (scanStep valid s c).deletedQuestionLabels = s.deletedQuestionLabels := by
  simp only [scanStep]
  split
  · split
    · rfl
    · split <;> rfl
  · rfl

theorem foldl_scanStep_blacklist (valid : String → Bool) :
    ∀ (cands : List ScanCandidate) (s : DCState),
      (cands.foldl (scanStep valid) s).deletedQuestionLabels = s.deletedQuestionLabels := by
  intro cands
  induction cands with
  | nil => intro s; rfl
  | cons c t ih => intro s; rw [List.foldl_cons, ih, scanStep_blacklist]

theorem scanForQuestions_blacklist (s : DCState) (cands : List ScanCandidate)
    (valid : String → Bool) :
    (scanForQuestions s cands valid).deletedQuestionLabels = s.deletedQuestionLabels := by
  unfold scanForQuestions
  split
  · exact foldl_scanStep_blacklist valid cands s
  · rfl

theorem updateQuestionAnswer_blacklist (s : DCState) (questionId newAnswer : String) :
    (updateQuestionAnswer s questionId newAnswer).deletedQuestionLabels
      = s.deletedQuestionLabels := by
  simp only [updateQuestionAnswer]
  split
  · rfl
  · split <;> rfl

theorem trackerUpdateQuestionAnswer_blacklist (s : DCState) (questionId answer : String) :
    (trackerUpdateQuestionAnswer s questionId answer).deletedQuestionLabels
      = s.deletedQuestionLabels := by
  simp only [trackerUpdateQuestionAnswer]
  split
  · split <;> rfl
  · rfl

theorem handleInputChange_blacklist (s : DCState) (oqid : Option String)
    (rawValue : String) :
    (handleInputChange s oqid rawValue).deletedQuestionLabels
      = s.deletedQuestionLabels := by
  simp only [handleInputChange]
  split
  · cases oqid with
    | none => rfl
    | some questionId =>
      cases h : assocGet s.detectedQuestions questionId with
      | none => simp [h]
      | some q => simp [h, trackerUpdateQuestionAnswer_blacklist]
  · rfl

theorem updateQuestionText_blacklist (s : DCState) (questionId newText : String) :
    (updateQuestionText s questionId newText).deletedQuestionLabels
      = s.deletedQuestionLabels := by
  simp only [updateQuestionText]
  split
  · rfl
  · split <;> rfl

theorem removeQuestion_blacklist_mem (s : DCState) (questionId T : String)
    (hT : T ∈ s.deletedQuestionLabels) :
    T ∈ (removeQuestion s questionId).deletedQuestionLabels := by
  simp only [removeQuestion]
  split
  · exact hT
  · exact setAdd_mem _ _ _ hT

theorem dcStep_blacklist_mem (s : DCState) (op : DCOp) (T : String)
    (hop : op.isStop = false) (hT : T ∈ s.deletedQuestionLabels) :
    T ∈ (dcStep s op).deletedQuestionLabels := by
  cases op with
  | scan cands valid => simpa [dcStep, scanForQuestions_blacklist] using hT
  | remove questionId => exact removeQuestion_blacklist_mem s questionId T hT
  | updateAnswer questionId newAnswer =>
    simpa [dcStep, updateQuestionAnswer_blacklist] using hT
  | inputChange oqid rawValue =>
    simpa [dcStep, handleInputChange_blacklist] using hT
  | updateText questionId newText =>
    simpa [dcStep, updateQuestionText_blacklist] using hT
  | stop => simp [DCOp.isStop] at hop
  | start cands valid =>
    simp only [dcStep, startQuestionTracking]
    split
    · exact hT
    · simpa [scanForQuestions_blacklist] using hT

theorem foldl_dcStep_blacklist (T : String) :
    ∀ (ops : List DCOp) (s : DCState),
      (∀ op ∈ ops, op.isStop = false) →
      T ∈ s.deletedQuestionLabels →
      T ∈ (ops.foldl dcStep s).deletedQuestionLabels := by
  intro ops
  induction ops with
  | nil => intro s _ hT; exact hT
  | cons op t ih =>
    intro s hops hT
    rw [List.foldl_cons]
    exact ih (dcStep s op) (fun o ho => hops o (List.mem_cons_of_mem op ho))
      (dcStep_blacklist_mem s op T (hops op (List.mem_cons_self op t)) hT)

theorem scanStep_stable (valid : String → Bool) (s : DCState) (c : ScanCandidate)
    (qid : String) (q₀ : Question)
    (h : assocGet s.detectedQuestions qid = some q₀) :
    assocGet (scanStep valid s c).detectedQuestions qid = some q₀ := by
  simp only [scanStep]
  split
  · split
    · exact h
    · split
      · exact h
      · rename_i hnone
        by_cases hk : qid = generateQuestionId c.text
        · rw [hk] at h
          rw [h] at hnone
          exact absurd hnone (by simp)
        · simpa [assocGet_set_ne _ _ _ _ hk] using h
  · exact h

theorem scanStep_new_question (valid : String → Bool) (s : DCState) (c : ScanCandidate)
    (qid : String) (q : Question)
    (h : assocGet (scanStep valid s c).detectedQuestions qid = some q)
    (hnew : assocGet s.detectedQuestions qid = none) :
    q.normalizedText ∉ s.deletedQuestionLabels := by
  simp only [scanStep] at h
  split at h
  · split at h
    · rw [h] at hnew; exact absurd hnew (by simp)
    · split at h
      · rw [h] at hnew; exact absurd hnew (by simp)
      · rename_i hbl _ _
        by_cases hk : qid = generateQuestionId c.text
        · subst hk
          rw [assocGet_set_self] at h
          cases h
          simpa using hbl
        · rw [assocGet_set_ne _ _ _ _ hk] at h
          rw [h] at hnew
          exact absurd hnew (by simp)
  · rw [h] at hnew; exact absurd hnew (by simp)

theorem foldl_scanStep_stable (valid : String → Bool) :
    ∀ (cands : List ScanCandidate) (s : DCState) (qid : String) (q₀ : Question),
      assocGet s.detectedQuestions qid = some q₀ →
      assocGet (cands.foldl (scanStep valid) s).detectedQuestions qid = some q₀ := by
  intro cands
  induction cands with
  | nil => intro s qid q₀ h; exact h
  | cons c t ih =>
    intro s qid q₀ h
    rw [List.foldl_cons]
    exact ih (scanStep valid s c) qid q₀ (scanStep_stable valid s c qid q₀ h)

theorem foldl_scanStep_new (valid : String → Bool) (T : String) :
    ∀ (cands : List ScanCandidate) (s : DCState),
      T ∈ s.deletedQuestionLabels →
      ∀ (qid : String) (q : Question),
        assocGet (cands.foldl (scanStep valid) s).detectedQuestions qid = some q →
        assocGet s.detectedQuestions qid = none →
        q.normalizedText ≠ T := by
  intro cands
  induction cands with
  | nil =>
    intro s _ qid q h hnone
    rw [List.foldl_nil] at h
    rw [h] at hnone
    exact absurd hnone (by simp)
  | cons c t ih =>
    intro s hT qid q h hnone
    rw [List.foldl_cons] at h
    have hT' : T ∈ (scanStep valid s c).deletedQuestionLabels := by
      rw [scanStep_blacklist]; exact hT
    cases hstep : assocGet (scanStep valid s c).detectedQuestions qid with
    | none => exact ih (scanStep valid s c) hT' qid q h hstep
    | some q₀ =>
      have hq₀ : q₀.normalizedText ∉ s.deletedQuestionLabels :=
        scanStep_new_question valid s c qid q₀ hstep hnone
      have hqq : q = q₀ :=
        Option.some_inj.mp
          (h.symm.trans (foldl_scanStep_stable valid t (scanStep valid s c) qid q₀ hstep))
      intro hcontra
      rw [hqq] at hcontra
      rw [hcontra] at hq₀
      exact hq₀ hT

/-! ## Claim C1: the 100-character answer threshold -/

def c1Text : String := "Describe your experience with distributed systems"

def c1LongAnswer : String := String.mk (List.replicate 150 'x')

def c1ShortRaw : String := String.mk (List.replicate 50 'y')

def c1Question : Question :=
  { id := "1", text := c1Text, normalizedText := normalizeQuestionText c1Text,
    answer := c1LongAnswer, answered := true }

def c1State : DCState :=
  { isTracking := true, detectedQuestions := [("1", c1Question)],
    deletedQuestionLabels := [], userAnswers := [(c1Text, c1LongAnswer)] }

set_option maxRecDepth 8000 in
/-- C1, counterexample: a tracked question holds a 150-character answer
with its `userAnswers` entry present; a DOM input-change event then
delivers a 50-character value.  The claim says a downward crossing of
the 100-character boundary removes the entry, but `handleInputChange`
ignores any value of trimmed length ≤ 100 outright: the state is
untouched and the stale entry survives, so the claimed equivalence
between entry presence and the updated answer's length fails. -/
theorem answer_threshold_input_change_counterexample :
    handleInputChange c1State (some "1") c1ShortRaw = c1State
    ∧ (jsTrim c1ShortRaw).length < 100
    ∧ assocGet (handleInputChange c1State (some "1") c1ShortRaw).userAnswers c1Question.text
        = some c1LongAnswer := by
  decide

/-- C1, amended: `DataCollector.updateQuestionAnswer` does maintain the
threshold equivalence (an entry under the question's text exists after
the update iff the new answer has at least 100 characters, and then it
stores exactly the new answer).  A DOM input-change event, however,
applies the promotion logic only when the trimmed value is strictly
longer than 100 characters; if the trimmed value has length ≤ 100 the
event is ignored entirely — the answer is not updated in place and an
existing `userAnswers` entry is not removed. -/
theorem answer_threshold_amended (s : DCState) (questionId newAnswer : String) (q : Question)
    (hq : assocGet s.detectedQuestions questionId = some q) :
    ((assocGet (updateQuestionAnswer s questionId newAnswer).userAnswers q.text).isSome
        ↔ 100 ≤ newAnswer.length)
    ∧ (100 ≤ newAnswer.length →
        assocGet (updateQuestionAnswer s questionId newAnswer).userAnswers q.text
          = some newAnswer)
    ∧ (∀ rawValue : String, 100 < (jsTrim rawValue).length →
        assocGet (handleInputChange s (some questionId) rawValue).userAnswers q.text
          = some (jsTrim rawValue))
    ∧ (∀ (rawValue : String) (oqid : Option String), (jsTrim rawValue).length ≤ 100 →
        handleInputChange s oqid rawValue = s) := by
  refine ⟨?_, ?_, ?_, ?_⟩
  · simp only [updateQuestionAnswer, hq]
    by_cases hlen : 100 ≤ newAnswer.length
    · rw [if_pos ⟨length_ge_100_ne_empty newAnswer hlen, hlen⟩]
      simp [assocGet_set_self, hlen]
    · rw [if_neg (fun hc => hlen hc.2)]
      simp [assocGet_delete_self, hlen]
  · intro hlen
    simp only [updateQuestionAnswer, hq]
    rw [if_pos ⟨length_ge_100_ne_empty newAnswer hlen, hlen⟩]
    simp [assocGet_set_self]
  · intro rawValue hlen
    have hle : 100 ≤ (jsTrim rawValue).length := Nat.le_of_lt hlen
    simp only [handleInputChange]
    rw [if_pos hlen]
    simp only [hq, trackerUpdateQuestionAnswer]
    rw [if_pos hle]
    simp [assocGet_set_self]
  · intro rawValue oqid hlen
    simp [handleInputChange, Nat.not_lt.mpr hlen]

set_option maxRecDepth 8000 in
/-- C1 witness: the amended theorem applied to the concrete state
`c1State`, question "1" and the 150-character answer. -/
theorem answer_threshold_amended_witness :
    assocGet c1State.detectedQuestions "1" = some c1Question
    ∧ assocGet (updateQuestionAnswer c1State "1" c1LongAnswer).userAnswers c1Question.text
        = some c1LongAnswer :=
  ⟨by decide,
   (answer_threshold_amended c1State "1" c1LongAnswer c1Question (by decide)).2.1
     (by decide)⟩

/-! ## Claim C2: deletion blacklist and rescan -/

def c2Text : String := "What is your experience with testing frameworks?"

def c2Question : Question :=
  { id := generateQuestionId c2Text, text := c2Text,
    normalizedText := normalizeQuestionText c2Text,
    answer := "", answered := false }

def c2State : DCState :=
  { isTracking := true,
    detectedQuestions := [(generateQuestionId c2Text, c2Question)],
    deletedQuestionLabels := [], userAnswers := [(c2Text, "recorded answer")] }

/-- C2: after `removeQuestion` on a question whose blacklist key is `T`
(the stored normalized text, or the normalization of its text when that
field is empty): the question is erased from the live set, its entry
under its original text is purged from `userAnswers`, `T` is
blacklisted, every `scanForQuestions` call after any stop-free sequence
of session operations registers no question whose normalized text
equals `T`, stopping tracking clears the blacklist, and after a
stop/restart a scan candidate for such a question is registered
again. -/
theorem remove_question_blacklist_session (s : DCState) (questionId : String) (q : Question)
    (hq : assocGet s.detectedQuestions questionId = some q) :
    assocGet (removeQuestion s questionId).detectedQuestions questionId = none
    ∧ assocGet (removeQuestion s questionId).userAnswers q.text = none
    ∧ (if q.normalizedText ≠ "" then q.normalizedText else normalizeQuestionText q.text)
        ∈ (removeQuestion s questionId).deletedQuestionLabels
    ∧ (∀ ops : List DCOp, (∀ op ∈ ops, op.isStop = false) →
        ∀ (cands : List ScanCandidate) (valid : String → Bool) (qid2 : String) (q2 : Question),
          assocGet (scanForQuestions (ops.foldl dcStep (removeQuestion s questionId)) cands
              valid).detectedQuestions qid2 = some q2 →
          assocGet (ops.foldl dcStep (removeQuestion s questionId)).detectedQuestions qid2
            = none →
          q2.normalizedText
            ≠ (if q.normalizedText ≠ "" then q.normalizedText
               else normalizeQuestionText q.text))
    ∧ (∀ u : DCState, (stopQuestionTracking u).deletedQuestionLabels = [])
    ∧ (∀ (u : DCState) (t v : String) (valid : String → Bool),
        valid t = true →
        assocGet u.detectedQuestions (generateQuestionId t) = none →
        assocGet (startQuestionTracking (stopQuestionTracking u) [⟨t, v⟩]
            valid).detectedQuestions (generateQuestionId t)
          = some ⟨generateQuestionId t, t, normalizeQuestionText t, v, false⟩) := by
  have hbl : (if q.normalizedText ≠ "" then q.normalizedText
      else normalizeQuestionText q.text)
      ∈ (removeQuestion s questionId).deletedQuestionLabels := by
    simp only [removeQuestion, hq]
    exact setAdd_self_mem _ _
  refine ⟨?_, ?_, hbl, ?_, ?_, ?_⟩
  · simp only [removeQuestion, hq]
    exact assocGet_delete_self _ _
  · simp only [removeQuestion, hq]
    exact assocGet_delete_self _ _
  · intro ops hops cands valid qid2 q2 hscan hnone
    have hTfold := foldl_dcStep_blacklist _ ops (removeQuestion s questionId) hops hbl
    simp only [scanForQuestions] at hscan
    split at hscan
    · exact foldl_scanStep_new valid _ cands _ hTfold qid2 q2 hscan hnone
    · rw [hscan] at hnone
      exact absurd hnone (by simp)
  · intro u
    rfl
  · intro u t v valid hvalid hfresh
    simp [startQuestionTracking, stopQuestionTracking, scanForQuestions, scanStep,
      hvalid, hfresh, assocGet_set_self]

set_option maxRecDepth 8000 in
/-- C2 witness: the theorem applied to the concrete state `c2State`
and its single tracked question. -/
theorem remove_question_blacklist_session_witness :
    assocGet c2State.detectedQuestions (generateQuestionId c2Text) = some c2Question
    ∧ assocGet (removeQuestion c2State (generateQuestionId c2Text)).userAnswers c2Question.text
        = none :=
  ⟨by decide,
   (remove_question_blacklist_session c2State (generateQuestionId c2Text) c2Question
      (by decide)).2.1⟩

/-! ## AutoFillManager (content-scripts/autoFillManager.js)

`startAutoFill` is embedded as a pure function of the manager state,
the question list, and an environment that fixes everything the DOM and
the backend decide during one run: whether the adapters loaded, the
authenticated user, whether the batched answer request succeeded, the
per-question fill outcome, and the earliest loop iteration at whose
top-of-loop check the (monotone) `cancelRequested` flag reads true. -/

/-- A question as handed to the auto-fill workflow. -/
structure AFQuestion where
  id : String
  text : String
  answer : String
  hasInput : Bool
deriving DecidableEq

/-- The per-question result object pushed by the fill loop. -/
structure FillResult where
  questionId : String
  questionText : String
  success : Bool
  error : Option String
deriving DecidableEq

/-- The completion / failure report returned by `startAutoFill`
(fields absent in a given JS object literal are the JS-falsy defaults:
`0`, `false`, `none`, `[]`). -/
structure AFReport where
  success : Bool
  filled : Nat
  skipped : Nat
  failed : Nat
  cancelled : Bool
  error : Option String
  message : String
  details : List FillResult
deriving DecidableEq

/-- The manager's mutable fields. -/
structure AFState where
  isRunning : Bool
  cancelRequested : Bool
  currentQuestionIndex : Nat
  totalQuestions : Nat
  results : List FillResult
deriving DecidableEq

/-- One run's environment: DOM / backend behaviour during the run.
`fillOutcome i = none` means the `i`-th fill verified successfully,
`some e` means it failed with error `e`; `cancelFrom = some k` means
the `cancelRequested` flag reads true from the `k`-th top-of-loop
check on (and at report time), `none` means it is never set. -/
structure AFEnv where
  adaptersLoaded : Bool
  userId : Option String
  answersOk : Bool
  answersError : String
  fillOutcome : Nat → Option String
  cancelFrom : Option Nat

/-- Whether the cooperative cancellation flag is observed at the
top-of-loop check of iteration `i`. -/
def cancelObserved (cancelFrom : Option Nat) (i : Nat) : Bool :=
  match cancelFrom with
  | some k => decide (k ≤ i)
  | none => false

/-- Step 5 of `startAutoFill`: fill each candidate in order, checking
the cancellation flag at the top of every iteration and recording one
result object per processed question. -/
def fillLoop (env : AFEnv) : Nat → List AFQuestion → List FillResult
  | _, [] => []
  | i, q :: rest =>
    if cancelObserved env.cancelFrom i then []
    else
      (match env.fillOutcome i with
       | none => { questionId := q.id, questionText := q.text, success := true, error := none }
       | some e =>
         { questionId := q.id, questionText := q.text, success := false, error := some e })
        :: fillLoop env (i + 1) rest

/-- `AutoFillManager.validatePrerequisites`. -/
def validatePrerequisites (questions : List AFQuestion) : Option String :=
  if questions.isEmpty then some "No questions to fill"
  else if (questions.filter (fun q => q.hasInput)).isEmpty then
    some "No input elements found for questions"
  else none

/-- Step 3 of `startAutoFill`: only questions with a completely empty
current answer are candidates. -/
def questionsToFill (questions : List AFQuestion) : List AFQuestion :=
  questions.filter (fun q => q.answer.length == 0)

/-- `AutoFillManager.generateReport`. -/
def generateReport (results : List FillResult) (cancelRequested : Bool)
    (totalQuestions : Nat) : AFReport :=
  let successful := (results.filter (fun r => r.success)).length
  let failedCount := (results.filter (fun r => !r.success)).length
  { success := true, filled := successful, skipped := 0, failed := failedCount,
    cancelled := cancelRequested, error := none,
    message :=
      if cancelRequested then
        "Auto-fill cancelled. Filled " ++ successful.repr ++ " questions."
      else
        "Filled " ++ successful.repr ++ " of " ++ totalQuestions.repr ++ " questions.",
    details := results }

/-- `AutoFillManager.handleError`: reset `isRunning`, report failure. -/
def handleError (st : AFState) (msg : String) : AFState × AFReport :=
  ({ st with isRunning := false },
   { success := false, filled := 0, skipped := 0, failed := st.totalQuestions,
     cancelled := false, error := some msg, message := "", details := st.results })

/-- What one invocation returned and which questions it sent to the
AI answer service. -/
structure AFOutcome where
  report : AFReport
  sent : List AFQuestion
deriving DecidableEq

/-- `AutoFillManager.startAutoFill`: guard against concurrent runs,
initialise, validate, filter to empty-answer questions, request the
batched answers, run the fill loop, and produce the report (the JS
`finally` clears `isRunning` on every path that passed the guard). -/
def startAutoFill (st : AFState) (questions : List AFQuestion) (env : AFEnv) :
    AFState × AFOutcome :=
  if st.isRunning then
    (st, { report := { success := false, filled := 0, skipped := 0, failed := 0,
                       cancelled := false, error := some "Auto-fill already running",
                       message := "", details := [] },
           sent := [] })
  else
    let st1 : AFState :=
      { isRunning := true, cancelRequested := false, currentQuestionIndex := 0,
        totalQuestions := questions.length, results := [] }
    if !env.adaptersLoaded then
      let r := handleError st1 "Required adapters not loaded"
      (r.1, { report := r.2, sent := [] })
    else
      match validatePrerequisites questions with
      | some errMsg =>
        let r := handleError st1 errMsg
        (r.1, { report := r.2, sent := [] })
      | none =>
        match env.userId with
        | none =>
          let r := handleError st1 "User not authenticated"
          (r.1, { report := r.2, sent := [] })
        | some _ =>
          let toFill := questionsToFill questions
          if toFill.isEmpty then
            ({ st1 with isRunning := false },
             { report := { success := true, filled := 0, skipped := questions.length,
                           failed := 0, cancelled := false, error := none,
                           message := "All questions already have answers", details := [] },
               sent := [] })
          else
            let st2 := { st1 with totalQuestions := toFill.length }
            if !env.answersOk then
              let r := handleError st2 ("Failed to get AI answers: " ++ env.answersError)
              (r.1, { report := r.2, sent := toFill })
            else
              let results := fillLoop env 0 toFill
              let cancelled := env.cancelFrom.isSome
              ({ st2 with isRunning := false, cancelRequested := cancelled,
                          currentQuestionIndex := results.length, results := results },
               { report := generateReport results cancelled toFill.length,
                 sent := toFill })

/-! ## Helper lemmas about the auto-fill run -/

theorem string_length_eq_zero (s : String) : s.length = 0 ↔ s = "" := by
  cases s with
  | mk data =>
    constructor
    · intro h
      have hd : data = [] := by
        simpa [String.length] using h
      rw [hd]
    · intro h
      rw [h]
      rfl

theorem fillLoop_mem (env : AFEnv) :
    ∀ (cands : List AFQuestion) (i : Nat) (r : FillResult),
      r ∈ fillLoop env i cands →
      ∃ q, q ∈ cands ∧ r.questionId = q.id ∧ r.questionText = q.text := by
  intro cands
  induction cands with
  | nil =>
    intro i r hr
    simp [fillLoop] at hr
  | cons q rest ih =>
    intro i r hr
    simp only [fillLoop] at hr
    split at hr
    · simp at hr
    · rcases houtcome : env.fillOutcome i with _ | e <;> simp only [houtcome] at hr <;>
        rcases List.mem_cons.mp hr with h1 | h2
      · exact ⟨q, List.mem_cons_self q rest, by rw [h1], by rw [h1]⟩
      · obtain ⟨q2, hq2, h3, h4⟩ := ih (i + 1) r h2
        exact ⟨q2, List.mem_cons_of_mem q hq2, h3, h4⟩
      · exact ⟨q, List.mem_cons_self q rest, by rw [h1], by rw [h1]⟩
      · obtain ⟨q2, hq2, h3, h4⟩ := ih (i + 1) r h2
        exact ⟨q2, List.mem_cons_of_mem q hq2, h3, h4⟩

theorem fillLoop_cancel_length (env : AFEnv) (k : Nat) (hc : env.cancelFrom = some k) :
    ∀ (cands : List AFQuestion) (i : Nat),
      (fillLoop env i cands).length = min (k - i) cands.length := by
  intro cands
  induction cands with
  | nil => intro i; simp [fillLoop]
  | cons q rest ih =>
    intro i
    simp only [fillLoop, cancelObserved, hc]
    by_cases hki : k ≤ i
    · have h0 : k - i = 0 := by omega
      simp [hki, h0]
    · rw [if_neg (by simpa using hki)]
      rcases houtcome : env.fillOutcome i with _ | e <;>
        simp only [houtcome, List.length_cons, ih (i + 1)] <;> omega

theorem fillLoop_cancel_successes (env : AFEnv) (k : Nat) (hc : env.cancelFrom = some k) :
    ∀ (cands : List AFQuestion) (i : Nat),
      ((fillLoop env i cands).filter (fun r => r.success)).length
        = ((List.range' i (min (k - i) cands.length)).filter
            (fun j => (env.fillOutcome j).isNone)).length := by
  intro cands
  induction cands with
  | nil => intro i; simp [fillLoop]
  | cons q rest ih =>
    intro i
    simp only [fillLoop, cancelObserved, hc]
    by_cases hki : k ≤ i
    · have : k - i = 0 := by omega
      simp [hki, this]
    · have hmin : min (k - i) (q :: rest).length = min (k - (i + 1)) rest.length + 1 := by
        simp only [List.length_cons]
        omega
      rw [if_neg (by simpa using hki)]
      simp only [hmin, List.range'_succ]
      rcases houtcome : env.fillOutcome i with _ | e <;>
        simp [houtcome, List.filter_cons, ih (i + 1)]

theorem startAutoFill_sent_cases (st : AFState) (questions : List AFQuestion) (env : AFEnv) :
    (startAutoFill st questions env).2.sent = []
    ∨ (startAutoFill st questions env).2.sent = questionsToFill questions := by
  simp only [startAutoFill]
  split
  · exact Or.inl rfl
  · split
    · exact Or.inl rfl
    · split
      · exact Or.inl rfl
      · split
        · exact Or.inl rfl
        · split
          · exact Or.inl rfl
          · split
            · exact Or.inr rfl
            · exact Or.inr rfl

theorem startAutoFill_details_cases (st : AFState) (questions : List AFQuestion)
    (env : AFEnv) :
    (startAutoFill st questions env).2.report.details = []
    ∨ (startAutoFill st questions env).2.report.details
        = fillLoop env 0 (questionsToFill questions) := by
  simp only [startAutoFill]
  split
  · exact Or.inl rfl
  · split
    · exact Or.inl rfl
    · split
      · exact Or.inl rfl
      · split
        · exact Or.inl rfl
        · split
          · exact Or.inl rfl
          · split
            · exact Or.inl rfl
            · exact Or.inr rfl

/-! ## Claim C7: auto-fill never touches questions with an answer -/

/-- C7: the candidate set of the auto-fill workflow is exactly the
input questions whose current answer is the empty string; every
question the run sends to the AI answer service is such a candidate,
and every result object produced by the fill loop originates from such
a candidate — so a question with any non-empty answer is never sent
and never filled. -/
theorem autofill_skip_nonempty (questions : List AFQuestion) (st : AFState) (env : AFEnv) :
    (∀ q : AFQuestion, q ∈ questionsToFill questions ↔ (q ∈ questions ∧ q.answer = ""))
    ∧ (∀ q ∈ (startAutoFill st questions env).2.sent, q.answer = "")
    ∧ (∀ r ∈ (startAutoFill st questions env).2.report.details,
        ∃ q, q ∈ questionsToFill questions ∧ r.questionId = q.id ∧ r.questionText = q.text) := by
  have hmemiff : ∀ q : AFQuestion,
      q ∈ questionsToFill questions ↔ (q ∈ questions ∧ q.answer = "") := by
    intro q
    simp [questionsToFill, List.mem_filter, string_length_eq_zero]
  refine ⟨hmemiff, ?_, ?_⟩
  · intro q hq
    rcases startAutoFill_sent_cases st questions env with hs | hs
    · rw [hs] at hq
      simp at hq
    · rw [hs] at hq
      exact ((hmemiff q).mp hq).2
  · intro r hr
    rcases startAutoFill_details_cases st questions env with hd | hd
    · rw [hd] at hr
      simp at hr
    · rw [hd] at hr
      exact fillLoop_mem env (questionsToFill questions) 0 r hr

def c7Questions : List AFQuestion :=
  [ { id := "q1", text := "Why are you interested in this position?", answer := "x",
      hasInput := true },
    { id := "q2", text := "Describe your experience with testing", answer := "",
      hasInput := true } ]

def c7Env : AFEnv :=
  { adaptersLoaded := true, userId := some "user-1", answersOk := true, answersError := "",
    fillOutcome := fun _ => none, cancelFrom := none }

def c7Idle : AFState :=
  { isRunning := false, cancelRequested := false, currentQuestionIndex := 0,
    totalQuestions := 0, results := [] }

/-- C7 witness: on a concrete run, the question with the one-character
answer "x" is excluded from the candidate set. -/
theorem autofill_skip_nonempty_witness :
    c7Questions[0] ∈ c7Questions
    ∧ ¬(c7Questions[0] ∈ questionsToFill c7Questions) :=
  ⟨by decide,
   fun hmem =>
     absurd (((autofill_skip_nonempty c7Questions c7Idle c7Env).1 _).mp hmem).2 (by decide)⟩

/-! ## Claim C8: cooperative cancellation and the completion report -/

def c8Questions : List AFQuestion :=
  [ { id := "q1", text := "Why do you want to work here?", answer := "", hasInput := true },
    { id := "q2", text := "Describe a challenge you solved", answer := "", hasInput := true } ]

def c8Env : AFEnv :=
  { adaptersLoaded := true, userId := some "user-1", answersOk := true, answersError := "",
    fillOutcome := fun _ => some "Value verification failed: Value is empty",
    cancelFrom := some 1 }

def c8Idle : AFState :=
  { isRunning := false, cancelRequested := false, currentQuestionIndex := 0,
    totalQuestions := 0, results := [] }

/-- C8, counterexample: two empty-answer questions, the first fill
fails verification, cancellation is observed at the top of the second
iteration.  Exactly one question was processed before the flag was
observed, the report is produced with `cancelled := true`, but its
`filled` count is 0, not 1: `filled` counts successful fills, not
processed questions. -/
theorem autofill_cancellation_counterexample :
    ((startAutoFill c8Idle c8Questions c8Env).2.report.details).length = 1
    ∧ (startAutoFill c8Idle c8Questions c8Env).2.report.cancelled = true
    ∧ (startAutoFill c8Idle c8Questions c8Env).2.report.filled = 0
    ∧ (startAutoFill c8Idle c8Questions c8Env).2.report.filled
        ≠ ((startAutoFill c8Idle c8Questions c8Env).2.report.details).length := by
  decide

/-- C8, amended: when cancellation is first observed at the top-of-loop
check of iteration `k`, the loop exits at that iteration boundary after
processing exactly `min k n` of the `n` candidates (each in-progress
fill completes and records its result), a completion report is still
produced with `success := true` and `cancelled := true`, and its
`filled` count equals the number of *successfully filled* questions
among those processed before the flag was observed. -/
theorem autofill_cancellation_amended (st : AFState) (questions : List AFQuestion)
    (env : AFEnv) (k : Nat) (uid : String)
    (hrun : st.isRunning = false)
    (ha : env.adaptersLoaded = true)
    (hv : validatePrerequisites questions = none)
    (hu : env.userId = some uid)
    (hne : (questionsToFill questions).isEmpty = false)
    (hans : env.answersOk = true)
    (hc : env.cancelFrom = some k) :
    ((startAutoFill st questions env).2.report.details).length
        = min k (questionsToFill questions).length
    ∧ (startAutoFill st questions env).2.report.cancelled = true
    ∧ (startAutoFill st questions env).2.report.success = true
    ∧ (startAutoFill st questions env).2.report.filled
        = ((List.range (min k (questionsToFill questions).length)).filter
            (fun j => (env.fillOutcome j).isNone)).length := by
  have hrw : (startAutoFill st questions env).2.report
      = generateReport (fillLoop env 0 (questionsToFill questions))
          env.cancelFrom.isSome (questionsToFill questions).length := by
    simp [startAutoFill, hrun, ha, hv, hu, hne, hans]
  have hlen := fillLoop_cancel_length env k hc (questionsToFill questions) 0
  have hsucc := fillLoop_cancel_successes env k hc (questionsToFill questions) 0
  simp only [Nat.sub_zero] at hlen hsucc
  rw [hrw]
  refine ⟨?_, ?_, ?_, ?_⟩
  · simpa [generateReport] using hlen
  · simp [generateReport, hc]
  · simp [generateReport]
  · simp only [generateReport]
    rw [hsucc, List.range_eq_range']

/-- C8 witness: the amended theorem applied to the concrete cancelled
run of `autofill_cancellation_counterexample`. -/
theorem autofill_cancellation_amended_witness :
    ((startAutoFill c8Idle c8Questions c8Env).2.report.details).length
        = min 1 (questionsToFill c8Questions).length
    ∧ (startAutoFill c8Idle c8Questions c8Env).2.report.cancelled = true :=
  ⟨(autofill_cancellation_amended c8Idle c8Questions c8Env 1 "user-1"
      rfl rfl (by decide) rfl (by decide) rfl rfl).1,
   (autofill_cancellation_amended c8Idle c8Questions c8Env 1 "user-1"
      rfl rfl (by decide) rfl (by decide) rfl rfl).2.1⟩

/-! ## Claim C9: the run is exclusive -/

/-- C9: invoking `startAutoFill` while a run is in flight returns an
"already running" failure immediately: the result has
`success := false` and the fixed error text, nothing is sent to the
answer service, and the manager's state — flags, progress counters and
results — is returned unchanged. -/
theorem autofill_exclusive_guard (st : AFState) (questions : List AFQuestion) (env : AFEnv)
    (h : st.isRunning = true) :
    (startAutoFill st questions env).1 = st
    ∧ (startAutoFill st questions env).2.report.success = false
    ∧ (startAutoFill st questions env).2.report.error = some "Auto-fill already running"
    ∧ (startAutoFill st questions env).2.sent = [] := by
  simp [startAutoFill, h]

def c9Busy : AFState :=
  { isRunning := true, cancelRequested := false, currentQuestionIndex := 2,
    totalQuestions := 5,
    results := [{ questionId := "q1", questionText := "Why this role?", success := true,
                  error := none }] }

/-- C9 witness: the guard theorem applied to a concrete in-flight
state. -/
theorem autofill_exclusive_guard_witness :
    c9Busy.isRunning = true
    ∧ (startAutoFill c9Busy c8Questions c7Env).1 = c9Busy :=
  ⟨rfl, (autofill_exclusive_guard c9Busy c8Questions c7Env rfl).1⟩

/-! ## JobDataExtractor (content-scripts/jobDataExtractor.js)

The four extraction passes read the DOM, so each pass's output is a
parameter of type `Option JobRecord` (`none` models the JS `null`
returned when a pass finds nothing).  `extract`, `mergeData`,
`isComplete`, `normalize` and `smartTruncate` are translated from the
source. -/

/-- The extraction record (all fields strings, absence = `""`). -/
structure JobRecord where
  jobTitle : String
  companyName : String
  location : String
  jobDescription : String
  salary : String
  jobType : String
deriving DecidableEq

def emptyJobRecord : JobRecord :=
  { jobTitle := "", companyName := "", location := "", jobDescription := "",
    salary := "", jobType := "" }

/-- One key's update inside `mergeData`'s loop:
`if (!merged[key] && source[key]) merged[key] = source[key]`. -/
def mergeField (m s : String) : String :=
  if m = "" ∧ s ≠ "" then s else m

/-- One source's pass inside `mergeData` (a `null` source is skipped). -/
def mergeRecordStep (merged : JobRecord) (src : Option JobRecord) : JobRecord :=
  match src with
  | none => merged
  | some s =>
    { jobTitle := mergeField merged.jobTitle s.jobTitle,
      companyName := mergeField merged.companyName s.companyName,
      location := mergeField merged.location s.location,
      jobDescription := mergeField merged.jobDescription s.jobDescription,
      salary := mergeField merged.salary s.salary,
      jobType := mergeField merged.jobType s.jobType }

/-- `JobDataExtractor.mergeData`: fold the sources in priority order,
first non-empty value per field wins. -/
def mergeData (sources : List (Option JobRecord)) : JobRecord :=
  sources.foldl mergeRecordStep emptyJobRecord

/-- `JobDataExtractor.isComplete`: fraction of the three key fields
that are non-empty, compared against the threshold (exact rational
arithmetic agrees with the JS float comparison on all reachable
values 0, 1/3, 2/3, 1 against 0.7). -/
def isComplete (data : Option JobRecord) (threshold : ℚ) : Bool :=
  match data with
  | none => false
  | some d =>
    let fields := [d.jobTitle, d.companyName, d.jobDescription]
    let filled := (fields.filter (fun f => f ≠ "")).length
    decide ((filled : ℚ) / 3 ≥ threshold)

/-- `normalize`'s `mapType`: map employment-type free text onto the
closed vocabulary by keyword containment. -/
def mapType (str : String) : String :=
  if str = "" then ""
  else
    let lower := jsToLower str
    if jsIncludes lower "full" then "Full-time"
    else if jsIncludes lower "part" then "Part-time"
    else if jsIncludes lower "contract" then "Contract"
    else if jsIncludes lower "intern" then "Internship"
    else if jsIncludes lower "temp" then "Temporary"
    else if jsIncludes lower "seasonal" then "Seasonal"
    else if jsIncludes lower "freelance" then "Freelance"
    else str

/-- JS `String.prototype.lastIndexOf` for a single character: the last
index holding `c`, or `-1`. -/
def jsLastIndexOf : List Char → Char → Int
  | [], _ => -1
  | x :: rest, c =>
    let r := jsLastIndexOf rest c
    if r ≥ 0 then r + 1
    else if x = c then 0 else -1

/-- The truncation marker appended by `smartTruncate`. -/
def truncationMarker : String :=
  "\n\n[Description truncated. View full details at the job posting.]"

/-- The `Math.max` cut-point computation of `smartTruncate`, over the
first `maxLength` characters: prefer the last period (within the last
100 characters), newline (last 50) or space (last 20); otherwise cut
at `maxLength` exactly. -/
def smartCutPoint (truncated : List Char) (maxLength : Nat) : Int :=
  let lastSpace := jsLastIndexOf truncated ' '
  let lastNewline := jsLastIndexOf truncated '\n'
  let lastPeriod := jsLastIndexOf truncated '.'
  max (max (if lastPeriod > (maxLength : Int) - 100 then lastPeriod + 1 else 0)
           (if lastNewline > (maxLength : Int) - 50 then lastNewline else 0))
      (if lastSpace > (maxLength : Int) - 20 then lastSpace else (maxLength : Int))

/-- `normalize`'s `smartTruncate`: return short text unchanged; cut a
long text at the computed cut point, trim, and append the marker. -/
def smartTruncate (text : String) (maxLength : Nat) : String :=
  if text.length ≤ maxLength then text
  else
    let truncated := text.data.take maxLength
    let cutPoint := smartCutPoint truncated maxLength
    String.mk (trimChars (text.data.take cutPoint.toNat)) ++ truncationMarker

/-- `JobDataExtractor.normalize`: cap the description at 7000
characters and normalise the employment type. -/
def normalizeJobData (data : JobRecord) : JobRecord :=
  { jobTitle := data.jobTitle, companyName := data.companyName,
    location := data.location,
    jobDescription := smartTruncate data.jobDescription 7000,
    salary := data.salary, jobType := mapType data.jobType }

/-- The short-circuit condition of `extract`:
`fromJSONLD && this.isComplete(fromJSONLD, 0.7)`. -/
def extractShortCircuits (fromJSONLD : Option JobRecord) : Bool :=
  isComplete fromJSONLD (7 / 10)

/-- `JobDataExtractor.extract` as a function of the four passes'
outputs: return the normalized JSON-LD record when it is ≥ 70%
complete, otherwise merge all four sources in priority order
JSON-LD > site-specific > meta > DOM and normalize the result. -/
def extract (fromJSONLD fromMeta fromSiteSpecific fromDOM : Option JobRecord) : JobRecord :=
  match fromJSONLD with
  | some r =>
    if isComplete (some r) (7 / 10) then normalizeJobData r
    else normalizeJobData (mergeData [some r, fromSiteSpecific, fromMeta, fromDOM])
  | none => normalizeJobData (mergeData [none, fromSiteSpecific, fromMeta, fromDOM])

/-- Modelled from the spec: "first non-empty value wins, in
strategy-priority order" — the reference merge a field-by-field merge
is compared against. -/
def firstNonEmpty (l : List String) : String :=
  ((l.find? (fun s => s ≠ "")).getD "")

/-- The field a source contributes: `""` for a `null` source. -/
def optField (get : JobRecord → String) (src : Option JobRecord) : String :=
  match src with
  | none => ""
  | some r => get r

/-! ## Helper lemmas about the merge -/

theorem foldl_mergeField (l : List String) :
    ∀ acc : String, l.foldl mergeField acc = if acc = "" then firstNonEmpty l else acc := by
  induction l with
  | nil =>
    intro acc
    by_cases h : acc = "" <;> simp [firstNonEmpty, h]
  | cons x t ih =>
    intro acc
    rw [List.foldl_cons, ih]
    by_cases hacc : acc = ""
    · subst hacc
      by_cases hx : x = ""
      · simp [mergeField, firstNonEmpty, List.find?_cons, hx]
      · simp [mergeField, firstNonEmpty, List.find?_cons, hx]
    · simp [mergeField, firstNonEmpty, hacc]

theorem foldl_mergeRecordStep_field (get : JobRecord → String)
    (hstep : ∀ (m : JobRecord) (src : Option JobRecord),
      get (mergeRecordStep m src) = mergeField (get m) (optField get src))
    (l : List (Option JobRecord)) :
    ∀ acc : JobRecord, get (l.foldl mergeRecordStep acc)
      = (l.map (optField get)).foldl mergeField (get acc) := by
  induction l with
  | nil => intro acc; rfl
  | cons src t ih =>
    intro acc
    rw [List.foldl_cons, List.map_cons, List.foldl_cons, ih, hstep]

theorem mergeData_field (get : JobRecord → String)
    (hstep : ∀ (m : JobRecord) (src : Option JobRecord),
      get (mergeRecordStep m src) = mergeField (get m) (optField get src))
    (hempty : get emptyJobRecord = "")
    (sources : List (Option JobRecord)) :
    get (mergeData sources) = firstNonEmpty (sources.map (optField get)) := by
  unfold mergeData
  rw [foldl_mergeRecordStep_field get hstep, foldl_mergeField, hempty]
  simp

theorem mergeRecordStep_jobTitle (m : JobRecord) (src : Option JobRecord) :
    (mergeRecordStep m src).jobTitle = mergeField m.jobTitle (optField JobRecord.jobTitle src) := by
  cases src <;> simp [mergeRecordStep, mergeField, optField]

theorem mergeRecordStep_companyName (m : JobRecord) (src : Option JobRecord) :
    (mergeRecordStep m src).companyName
      = mergeField m.companyName (optField JobRecord.companyName src) := by
  cases src <;> simp [mergeRecordStep, mergeField, optField]

theorem mergeRecordStep_location (m : JobRecord) (src : Option JobRecord) :
    (mergeRecordStep m src).location
      = mergeField m.location (optField JobRecord.location src) := by
  cases src <;> simp [mergeRecordStep, mergeField, optField]

theorem mergeRecordStep_jobDescription (m : JobRecord) (src : Option JobRecord) :
    (mergeRecordStep m src).jobDescription
      = mergeField m.jobDescription (optField JobRecord.jobDescription src) := by
  cases src <;> simp [mergeRecordStep, mergeField, optField]

theorem mergeRecordStep_salary (m : JobRecord) (src : Option JobRecord) :
    (mergeRecordStep m src).salary = mergeField m.salary (optField JobRecord.salary src) := by
  cases src <;> simp [mergeRecordStep, mergeField, optField]

theorem mergeRecordStep_jobType (m : JobRecord) (src : Option JobRecord) :
    (mergeRecordStep m src).jobType = mergeField m.jobType (optField JobRecord.jobType src) := by
  cases src <;> simp [mergeRecordStep, mergeField, optField]

theorem isComplete_some_iff (d : JobRecord) :
    isComplete (some d) (7 / 10) = true
      ↔ (d.jobTitle ≠ "" ∧ d.companyName ≠ "" ∧ d.jobDescription ≠ "") := by
  simp only [isComplete]
  by_cases h1 : d.jobTitle = "" <;> by_cases h2 : d.companyName = "" <;>
    by_cases h3 : d.jobDescription = "" <;>
      simp [h1, h2, h3, List.filter_cons] <;> norm_num

/-! ## Claim C5: merge priority -/

/-- C5: the merge combines the passes field-by-field so that for each
of the six fields the first non-empty value in priority order
structured-data > site-specific > meta > generic wins
(`firstNonEmpty` is the spec's "first non-empty value wins" rule); in
particular, whenever the structured-data pass yields a non-empty
title, the record `extract` returns carries exactly that title,
whatever the other passes produced.  Argument order: `a` structured
data, `b` meta, `c` site-specific, `d` generic DOM — `extract`
merges `[a, c, b, d]`. -/
theorem merge_priority (a b c d : Option JobRecord) :
    ((mergeData [a, c, b, d]).jobTitle
        = firstNonEmpty ([a, c, b, d].map (optField JobRecord.jobTitle)))
    ∧ ((mergeData [a, c, b, d]).companyName
        = firstNonEmpty ([a, c, b, d].map (optField JobRecord.companyName)))
    ∧ ((mergeData [a, c, b, d]).location
        = firstNonEmpty ([a, c, b, d].map (optField JobRecord.location)))
    ∧ ((mergeData [a, c, b, d]).jobDescription
        = firstNonEmpty ([a, c, b, d].map (optField JobRecord.jobDescription)))
    ∧ ((mergeData [a, c, b, d]).salary
        = firstNonEmpty ([a, c, b, d].map (optField JobRecord.salary)))
    ∧ ((mergeData [a, c, b, d]).jobType
        = firstNonEmpty ([a, c, b, d].map (optField JobRecord.jobType)))
    ∧ (∀ rj : JobRecord, a = some rj → rj.jobTitle ≠ "" →
        (extract a b c d).jobTitle = rj.jobTitle) := by
  refine ⟨mergeData_field _ mergeRecordStep_jobTitle rfl _,
          mergeData_field _ mergeRecordStep_companyName rfl _,
          mergeData_field _ mergeRecordStep_location rfl _,
          mergeData_field _ mergeRecordStep_jobDescription rfl _,
          mergeData_field _ mergeRecordStep_salary rfl _,
          mergeData_field _ mergeRecordStep_jobType rfl _, ?_⟩
  intro rj harj hne
  subst harj
  simp only [extract]
  split
  · rfl
  · show (mergeData [some rj, c, b, d]).jobTitle = rj.jobTitle
    rw [mergeData_field _ mergeRecordStep_jobTitle rfl]
    simp [firstNonEmpty, optField, List.find?_cons, hne]

def c5Structured : JobRecord :=
  { jobTitle := "Senior Backend Engineer", companyName := "", location := "",
    jobDescription := "", salary := "", jobType := "" }

def c5Dom : JobRecord :=
  { jobTitle := "Jobs at Acme - Careers", companyName := "Acme", location := "Cairo, Egypt",
    jobDescription := "Responsibilities and requirements", salary := "", jobType := "" }

/-- C5 witness: with a structured-data title and a conflicting generic
DOM title both non-empty, the extracted record carries the
structured-data title. -/
theorem merge_priority_witness :
    (extract (some c5Structured) none none (some c5Dom)).jobTitle
      = c5Structured.jobTitle :=
  (merge_priority (some c5Structured) none none (some c5Dom)).2.2.2.2.2.2
    c5Structured rfl (by decide)

/-! ## Claim C6: the 70%-completeness short-circuit -/

/-- C6: `extract` short-circuits to the normalized structured-data
record — independently of the other three passes — exactly when the
JSON-LD record exists and is ≥ 70% complete over title, company and
description, which (the count being an integer out of 3) holds exactly
when all three of those fields are non-empty; otherwise it runs the
merge of all four passes. -/
theorem extract_shortcircuit_iff (fromJSONLD fromMeta fromSiteSpecific fromDOM :
    Option JobRecord) :
    (extractShortCircuits fromJSONLD = true
       ↔ ∃ r : JobRecord, fromJSONLD = some r
           ∧ r.jobTitle ≠ "" ∧ r.companyName ≠ "" ∧ r.jobDescription ≠ "")
    ∧ (∀ r : JobRecord, fromJSONLD = some r → extractShortCircuits fromJSONLD = true →
        extract fromJSONLD fromMeta fromSiteSpecific fromDOM = normalizeJobData r)
    ∧ (extractShortCircuits fromJSONLD = false →
        extract fromJSONLD fromMeta fromSiteSpecific fromDOM
          = normalizeJobData (mergeData [fromJSONLD, fromSiteSpecific, fromMeta, fromDOM])) := by
  refine ⟨?_, ?_, ?_⟩
  · cases fromJSONLD with
    | none =>
      simp [extractShortCircuits, isComplete]
    | some r =>
      rw [show extractShortCircuits (some r) = isComplete (some r) (7 / 10) from rfl,
        isComplete_some_iff]
      constructor
      · intro h
        exact ⟨r, rfl, h⟩
      · rintro ⟨r2, heq, h⟩
        cases heq
        exact h
  · intro r heq hsc
    subst heq
    have hc : isComplete (some r) (7 / 10) = true := hsc
    simp [extract, hc]
  · intro hsc
    cases fromJSONLD with
    | none => rfl
    | some r =>
      have hc : isComplete (some r) (7 / 10) = false := hsc
      simp [extract, hc]

def c6JsonLd : JobRecord :=
  { jobTitle := "Software Engineer", companyName := "Acme", location := "",
    jobDescription := "Build and maintain backend services", salary := "", jobType := "" }

/-- C6 witness: a JSON-LD record with non-empty title, company and
description short-circuits `extract` whatever the DOM pass found. -/
theorem extract_shortcircuit_iff_witness :
    extract (some c6JsonLd) none none (some c5Dom) = normalizeJobData c6JsonLd :=
  (extract_shortcircuit_iff (some c6JsonLd) none none (some c5Dom)).2.1
    c6JsonLd rfl
    (by
      rw [show extractShortCircuits (some c6JsonLd) = isComplete (some c6JsonLd) (7 / 10)
          from rfl, isComplete_some_iff]
      refine ⟨by decide, by decide, by decide⟩)

/-! ## Helper lemmas about `smartTruncate` -/

theorem jsLastIndexOf_lt_length (l : List Char) (c : Char) :
    jsLastIndexOf l c < (l.length : Int) := by
  induction l with
  | nil => simp [jsLastIndexOf]
  | cons x rest ih =>
    simp only [jsLastIndexOf, List.length_cons]
    split
    · push_cast
      omega
    · split <;> push_cast <;> omega

theorem jsLastIndexOf_char (l : List Char) (c : Char)
    (h : 0 ≤ jsLastIndexOf l c) :
    l.get? (jsLastIndexOf l c).toNat = some c := by
  induction l with
  | nil => simp [jsLastIndexOf] at h
  | cons x rest ih =>
    simp only [jsLastIndexOf] at h ⊢
    split
    · rename_i hr
      have htn : (jsLastIndexOf rest c + 1).toNat = (jsLastIndexOf rest c).toNat + 1 := by
        omega
      rw [htn]
      simpa [List.get?_eq_getElem?] using ih hr
    · rename_i hr
      split
      · rename_i hx
        simp [hx]
      · rename_i hx
        rw [if_neg hr, if_neg hx] at h
        omega

theorem jsLastIndexOf_not_mem (l : List Char) (c : Char) (h : c ∉ l) :
    jsLastIndexOf l c = -1 := by
  induction l with
  | nil => rfl
  | cons x rest ih =>
    have hx : x ≠ c := fun hh => h (hh ▸ List.mem_cons_self x rest)
    have hr : c ∉ rest := fun hh => h (List.mem_cons_of_mem x hh)
    simp only [jsLastIndexOf, ih hr]
    rw [if_neg (by omega), if_neg (fun hh => hx hh)]

theorem dropWhile_eq_self_of_forall (p : Char → Bool) (l : List Char)
    (h : ∀ c ∈ l, p c = false) : l.dropWhile p = l := by
  cases l with
  | nil => rfl
  | cons x rest =>
    have hx : p x = false := h x (List.mem_cons_self x rest)
    rw [List.dropWhile_cons, hx, if_neg Bool.false_ne_true]

theorem trimChars_eq_self (l : List Char)
    (h : ∀ c ∈ l, jsWhitespace c = false) : trimChars l = l := by
  unfold trimChars
  rw [dropWhile_eq_self_of_forall _ _ h,
    dropWhile_eq_self_of_forall _ _ (fun c hc => h c (List.mem_reverse.mp hc)),
    List.reverse_reverse]

theorem smartCutPoint_le (truncated : List Char) (maxLength : Nat)
    (hlen : (truncated.length : Int) ≤ (maxLength : Int)) :
    smartCutPoint truncated maxLength ≤ (maxLength : Int) := by
  have hp := jsLastIndexOf_lt_length truncated '.'
  have hn := jsLastIndexOf_lt_length truncated '\n'
  have hs := jsLastIndexOf_lt_length truncated ' '
  simp only [smartCutPoint]
  apply max_le (max_le _ _) _ <;> split <;> omega

theorem smartCutPoint_pos (truncated : List Char) (maxLength : Nat)
    (h20 : (20 : Int) ≤ (maxLength : Int)) :
    0 < smartCutPoint truncated maxLength := by
  simp only [smartCutPoint]
  apply lt_of_lt_of_le _ (le_max_right _ _)
  split <;> omega

theorem smartCutPoint_cap (truncated : List Char) (maxLength : Nat)
    (hlen : (truncated.length : Int) ≤ (maxLength : Int))
    (hsp : jsLastIndexOf truncated ' ' ≤ (maxLength : Int) - 20) :
    smartCutPoint truncated maxLength = (maxLength : Int) := by
  have hp := jsLastIndexOf_lt_length truncated '.'
  have hn := jsLastIndexOf_lt_length truncated '\n'
  have h3 : (if jsLastIndexOf truncated ' ' > (maxLength : Int) - 20 then
      jsLastIndexOf truncated ' ' else (maxLength : Int)) = (maxLength : Int) :=
    if_neg (by omega)
  simp only [smartCutPoint, h3]
  refine max_eq_right (max_le ?_ ?_) <;> split <;> omega

theorem smartCutPoint_boundary (truncated : List Char) (maxLength : Nat)
    (h20 : (20 : Int) ≤ (maxLength : Int))
    (hsp : (maxLength : Int) - 20 < jsLastIndexOf truncated ' ') :
    truncated.get? ((smartCutPoint truncated maxLength).toNat - 1) = some '.'
    ∨ truncated.get? (smartCutPoint truncated maxLength).toNat = some '\n'
    ∨ truncated.get? (smartCutPoint truncated maxLength).toNat = some ' ' := by
  have hpos : (0 : Int) < smartCutPoint truncated maxLength :=
    smartCutPoint_pos truncated maxLength h20
  have hge : jsLastIndexOf truncated ' ' ≤ smartCutPoint truncated maxLength := by
    have h3 : (if jsLastIndexOf truncated ' ' > (maxLength : Int) - 20 then
        jsLastIndexOf truncated ' ' else (maxLength : Int)) = jsLastIndexOf truncated ' ' :=
      if_pos (by omega)
    simp only [smartCutPoint, h3]
    exact le_max_right _ _
  rcases max_choice (max (if jsLastIndexOf truncated '.' > (maxLength : Int) - 100 then
        jsLastIndexOf truncated '.' + 1 else 0)
      (if jsLastIndexOf truncated '\n' > (maxLength : Int) - 50 then
        jsLastIndexOf truncated '\n' else 0))
      (if jsLastIndexOf truncated ' ' > (maxLength : Int) - 20 then
        jsLastIndexOf truncated ' ' else (maxLength : Int)) with hmax | hmax
  · rcases max_choice (if jsLastIndexOf truncated '.' > (maxLength : Int) - 100 then
          jsLastIndexOf truncated '.' + 1 else 0)
        (if jsLastIndexOf truncated '\n' > (maxLength : Int) - 50 then
          jsLastIndexOf truncated '\n' else 0) with hmax2 | hmax2
    · left
      have hcut : smartCutPoint truncated maxLength
          = (if jsLastIndexOf truncated '.' > (maxLength : Int) - 100 then
              jsLastIndexOf truncated '.' + 1 else 0) := by
        simp only [smartCutPoint]
        rw [hmax, hmax2]
      rw [hcut] at hpos ⊢
      split at hpos
      · rename_i hcond
        rw [if_pos hcond]
        have h0 : 0 ≤ jsLastIndexOf truncated '.' := by omega
        have htn : (jsLastIndexOf truncated '.' + 1).toNat - 1
            = (jsLastIndexOf truncated '.').toNat := by omega
        rw [htn]
        exact jsLastIndexOf_char truncated '.' h0
      · omega
    · right; left
      have hcut : smartCutPoint truncated maxLength
          = (if jsLastIndexOf truncated '\n' > (maxLength : Int) - 50 then
              jsLastIndexOf truncated '\n' else 0) := by
        simp only [smartCutPoint]
        rw [hmax, hmax2]
      rw [hcut] at hpos ⊢
      split at hpos
      · rename_i hcond
        rw [if_pos hcond]
        exact jsLastIndexOf_char truncated '\n' (by omega)
      · omega
  · right; right
    have hcut : smartCutPoint truncated maxLength
        = (if jsLastIndexOf truncated ' ' > (maxLength : Int) - 20 then
            jsLastIndexOf truncated ' ' else (maxLength : Int)) := by
      simp only [smartCutPoint]
      rw [hmax]
    rw [hcut, if_pos (by omega)]
    exact jsLastIndexOf_char truncated ' ' (by omega)

/-! ## Claim C3: description truncation -/

def c3Text : String := String.mk (List.replicate 7001 'a')

/-- C3, counterexample: a 7001-character description consisting of one
unbroken word.  `smartTruncate` cuts it at exactly 7000 characters and
appends the marker, splitting the word: the kept text ends with a
non-whitespace character and the original continues with a
non-whitespace character at the cut, so "never in the middle of a
word" fails. -/
theorem smart_truncate_counterexample :
    smartTruncate c3Text 7000 = String.mk (List.replicate 7000 'a') ++ truncationMarker
    ∧ c3Text.data.get? 6999 = some 'a'
    ∧ c3Text.data.get? 7000 = some 'a'
    ∧ jsWhitespace 'a' = false := by
  have hdata : c3Text.data = List.replicate 7001 'a' := rfl
  have htake : c3Text.data.take 7000 = List.replicate 7000 'a' := by
    rw [hdata, List.take_replicate]
    norm_num
  have hsp : jsLastIndexOf (c3Text.data.take 7000) ' ' = -1 := by
    rw [htake]
    exact jsLastIndexOf_not_mem _ _
      (fun hmem => absurd (List.mem_replicate.mp hmem).2 (by decide))
  have hlen7001 : c3Text.length = 7001 := by
    show (List.replicate 7001 'a').length = 7001
    rw [List.length_replicate]
  have hlen : ((c3Text.data.take 7000).length : Int) ≤ ((7000 : Nat) : Int) := by
    rw [List.length_take]
    exact_mod_cast min_le_left 7000 _
  have hcut : smartCutPoint (c3Text.data.take 7000) 7000 = ((7000 : Nat) : Int) := by
    apply smartCutPoint_cap _ _ hlen
    rw [hsp]
    norm_num
  refine ⟨?_, ?_, ?_, by decide⟩
  · unfold smartTruncate
    rw [if_neg (by omega)]
    show String.mk (trimChars (c3Text.data.take
        (smartCutPoint (c3Text.data.take 7000) 7000).toNat)) ++ truncationMarker
      = String.mk (List.replicate 7000 'a') ++ truncationMarker
    have h1 : (smartCutPoint (c3Text.data.take 7000) 7000).toNat = 7000 := by
      rw [hcut]
      simp
    rw [h1, htake, trimChars_eq_self]
    intro c hc
    have hc2 := List.eq_of_mem_replicate hc
    subst hc2
    decide
  · rw [hdata, List.get?_eq_getElem?, List.getElem?_replicate, if_pos (by norm_num)]
  · rw [hdata, List.get?_eq_getElem?, List.getElem?_replicate, if_pos (by norm_num)]

/-- C3, amended: a description of at most 7000 characters is returned
unchanged; a longer one is cut and always ends with the truncation
marker, the kept text never exceeding 7000 characters.  The cut lands
on a word/sentence boundary (right after a period, or on a newline or
space of the original) whenever the 7000-character window contains a
space within its last 20 characters; when it does not, the cut is made
at exactly 7000 characters, which can split a word. -/
theorem smart_truncate_amended (text : String) :
    (text.length ≤ 7000 → smartTruncate text 7000 = text)
    ∧ (7000 < text.length →
        smartTruncate text 7000
          = String.mk (trimChars (text.data.take
              (smartCutPoint (text.data.take 7000) 7000).toNat)) ++ truncationMarker
        ∧ 0 < smartCutPoint (text.data.take 7000) 7000
        ∧ smartCutPoint (text.data.take 7000) 7000 ≤ 7000
        ∧ (jsLastIndexOf (text.data.take 7000) ' ' ≤ 6980 →
            smartCutPoint (text.data.take 7000) 7000 = 7000)
        ∧ (6980 < jsLastIndexOf (text.data.take 7000) ' ' →
            ((text.data.take 7000).get?
                ((smartCutPoint (text.data.take 7000) 7000).toNat - 1) = some '.'
             ∨ (text.data.take 7000).get?
                (smartCutPoint (text.data.take 7000) 7000).toNat = some '\n'
             ∨ (text.data.take 7000).get?
                (smartCutPoint (text.data.take 7000) 7000).toNat = some ' '))) := by
  constructor
  · intro h
    unfold smartTruncate
    rw [if_pos h]
  · intro h
    have hlen : ((text.data.take 7000).length : Int) ≤ ((7000 : Nat) : Int) := by
      rw [List.length_take]
      exact_mod_cast min_le_left 7000 _
    have hnot : ¬(text.length ≤ 7000) := by omega
    refine ⟨?_, ?_, ?_, ?_, ?_⟩
    · unfold smartTruncate
      rw [if_neg hnot]
    · exact smartCutPoint_pos _ _ (by norm_num)
    · have hle := smartCutPoint_le (text.data.take 7000) 7000 hlen
      simpa using hle
    · intro hsp
      have hcap := smartCutPoint_cap (text.data.take 7000) 7000 hlen (by omega)
      simpa using hcap
    · intro hsp
      exact smartCutPoint_boundary _ _ (by norm_num) (by omega)

/-- C3 witness: the amended theorem applied to a short description,
returned unchanged. -/
theorem smart_truncate_amended_witness :
    smartTruncate "Great role at a great company." 7000
      = "Great role at a great company." :=
  (smart_truncate_amended "Great role at a great company.").1 (by decide)

/-! ## PageDetector.detectPageType (src/unnamed/part_000)

`detectPageType(url)` reads the URL, its pathname (via `new URL`) and
`document.body.textContent`; the three strings are parameters here and
the nested site-specific pattern blocks are flattened into one
if-chain — a block whose conditions all fail falls through to the next
block exactly as in the source. -/

def detectPageType (url pathnameRaw bodyText : String) : String :=
  let urlLower := jsToLower url
  let pathname := jsToLower pathnameRaw
  let pageContent := jsToLower bodyText
  if jsIncludes urlLower "linkedin.com"
      && (jsIncludes urlLower "/jobs/view/" || jsIncludes urlLower "jobid=") then
    "job_posting"
  else if jsIncludes urlLower "linkedin.com"
      && (jsIncludes urlLower "/jobs/application/" || jsIncludes urlLower "apply") then
    "application_form"
  else if jsIncludes urlLower "linkedin.com"
      && (jsIncludes pageContent "application submitted"
          || jsIncludes pageContent "thank you for applying") then
    "application_complete"
  else if jsIncludes urlLower "indeed.com"
      && (jsIncludes urlLower "/viewjob" || jsIncludes pathname "/jobs/") then
    "job_posting"
  else if jsIncludes urlLower "indeed.com"
      && (jsIncludes urlLower "/apply" || jsIncludes pathname "/apply") then
    "application_form"
  else if jsIncludes urlLower "indeed.com"
      && (jsIncludes pageContent "application submitted"
          || jsIncludes pageContent "successfully applied") then
    "application_complete"
  else if jsIncludes urlLower "glassdoor.com"
      && (jsIncludes urlLower "/job-listing/" || jsIncludes pathname "/jobs/") then
    "job_posting"
  else if jsIncludes urlLower "glassdoor.com"
      && (jsIncludes pathname "/apply" || jsIncludes urlLower "apply") then
    "application_form"
  else if jsIncludes pathname "apply" || jsIncludes pathname "application" then
    if jsIncludes pageContent "thank you" || jsIncludes pageContent "submitted"
        || jsIncludes pageContent "confirmation" || jsIncludes pageContent "success" then
      "application_complete"
    else
      "application_form"
  else if jsIncludes pathname "job" || jsIncludes pathname "career"
      || jsIncludes pathname "position" then
    "job_posting"
  else if jsIncludes pageContent "apply now"
      || jsIncludes pageContent "submit application" then
    "job_posting"
  else if jsIncludes pageContent "application form"
      || jsIncludes pageContent "job application" then
    "application_form"
  else
    "unknown"

/-! ## Claim C4: page-type classification -/

/-- C4, counterexample: a LinkedIn URL containing `/jobs/application/`
— even on a page whose body text contains "thank you for applying" —
classifies as `application_form`, not `application_complete`: the URL
branch returns before the body-text check is reached. -/
theorem detect_page_type_counterexample :
    detectPageType "https://www.linkedin.com/jobs/application/123456"
        "/jobs/application/123456" "Thank you for applying to Acme"
      = "application_form"
    ∧ "application_form" ≠ "application_complete" := by
  refine ⟨by decide, by decide⟩

/-- C4, amended: on linkedin.com, a URL containing `/jobs/view/`
classifies as `job_posting`; a URL matching no job-posting pattern but
containing `/jobs/application/` classifies as `application_form`; and
only when the URL matches neither the job-posting patterns
(`/jobs/view/`, `jobid=`) nor the application-form patterns
(`/jobs/application/`, `apply`) does body text containing
"thank you for applying" classify the page as `application_complete`. -/
theorem detect_page_type_amended (url pathnameRaw bodyText : String)
    (hli : jsIncludes (jsToLower url) "linkedin.com" = true) :
    (jsIncludes (jsToLower url) "/jobs/view/" = true →
      detectPageType url pathnameRaw bodyText = "job_posting")
    ∧ (jsIncludes (jsToLower url) "/jobs/view/" = false →
       jsIncludes (jsToLower url) "jobid=" = false →
       jsIncludes (jsToLower url) "/jobs/application/" = true →
        detectPageType url pathnameRaw bodyText = "application_form")
    ∧ (jsIncludes (jsToLower url) "/jobs/view/" = false →
       jsIncludes (jsToLower url) "jobid=" = false →
       jsIncludes (jsToLower url) "/jobs/application/" = false →
       jsIncludes (jsToLower url) "apply" = false →
       jsIncludes (jsToLower bodyText) "thank you for applying" = true →
        detectPageType url pathnameRaw bodyText = "application_complete") := by
  refine ⟨?_, ?_, ?_⟩
  · intro hview
    simp [detectPageType, hli, hview]
  · intro hview hjobid happ
    simp [detectPageType, hli, hview, hjobid, happ]
  · intro hview hjobid happ happly hthanks
    simp [detectPageType, hli, hview, hjobid, happ, happly, hthanks]

/-- C4 witness: the amended theorem applied to the claim's example URL
and to a LinkedIn page whose body text reports a submitted
application. -/
theorem detect_page_type_amended_witness :
    detectPageType "https://www.linkedin.com/jobs/view/12345" "/jobs/view/12345" ""
      = "job_posting"
    ∧ detectPageType "https://www.linkedin.com/feed/update/777" "/feed/update/777"
        "Thank you for applying to Acme" = "application_complete" :=
  ⟨(detect_page_type_amended "https://www.linkedin.com/jobs/view/12345"
      "/jobs/view/12345" "" (by decide)).1 (by decide),
   (detect_page_type_amended "https://www.linkedin.com/feed/update/777"
      "/feed/update/777" "Thank you for applying to Acme" (by decide)).2.2
     (by decide) (by decide) (by decide) (by decide) (by decide)⟩

/-! ## InputAdapterManager (content-scripts/inputAdapterManager.js)

DOM side effects may throw; an `Except String` value models a
computation that either completes or raises an exception whose message
is the string.  An `.error` escaping a function models an exception
crossing its public boundary; `.ok` carries the tagged result object
`{success, error}` the adapters return. -/

/-- The `{success, error}` result object of the fill adapters. -/
structure AdapterResult where
  success : Bool
  error : Option String
deriving DecidableEq

/-- The element operations `StandardInputAdapter.fill` performs, each
allowed to throw (focus, clearing the value, setting the value,
dispatching the input event). -/
structure ElementOps where
  focusEl : Except String Unit
  clearValue : Except String Unit
  setValue : Except String Unit
  dispatchInput : Except String Unit

/-- The `try` body of `StandardInputAdapter.fill`: run the element
operations in order and return `{success: true}`. -/
def standardFillBody (el : ElementOps) : Except String AdapterResult := do
  el.focusEl
  el.clearValue
  el.setValue
  el.dispatchInput
  pure { success := true, error := none }

/-- `StandardInputAdapter.fill`: the body wrapped in the
`catch (error) { return { success: false, error: error.message } }`
handler. -/
def standardFill (el : ElementOps) : Except String AdapterResult :=
  match standardFillBody el with
  | .ok r => .ok r
  | .error e => .ok { success := false, error := some e }

/-- The six adapters registered in the manager's constructor. -/
inductive AdapterKind where
  | standard
  | react
  | vue
  | contentEditable
  | wysiwyg
  | select
deriving DecidableEq

/-- `InputAdapterManager.getAdapter`:
`this.adapters[inputType] || this.adapters.standard` — total, never
null. -/
def getAdapter (inputType : String) : AdapterKind :=
  if inputType = "standard" then .standard
  else if inputType = "react" then .react
  else if inputType = "vue" then .vue
  else if inputType = "contentEditable" then .contentEditable
  else if inputType = "wysiwyg" then .wysiwyg
  else if inputType = "select" then .select
  else .standard

/-- `InputAdapterManager.fillInput`: dispatch to the adapter for the
given input type (`adapterRun` gives each adapter's behaviour on the
current element and value, exceptions included) and catch anything the
adapter throws, returning it as `{success: false, error}`. -/
def fillInput (adapterRun : AdapterKind → Except String AdapterResult)
    (inputType : String) : Except String AdapterResult :=
  match adapterRun (getAdapter inputType) with
  | .ok r => .ok r
  | .error e => .ok { success := false, error := some e }

/-! ## Claim C10: fill never throws across the public boundary -/

/-- C10: for every element behaviour, adapter behaviour and input
type, `StandardInputAdapter.fill` and `InputAdapterManager.fillInput`
never propagate an exception — each always returns a tagged result
object.  A caught exception becomes `{success: false, error: message}`
and a successful body returns `{success: true}`; a failed
`standardFill` result always carries an error message. -/
theorem fill_never_throws (el : ElementOps)
    (adapterRun : AdapterKind → Except String AdapterResult) (inputType : String) :
    (∃ r : AdapterResult, standardFill el = Except.ok r
        ∧ (r.success = true → r.error = none)
        ∧ (r.success = false → r.error.isSome = true))
    ∧ (∃ r : AdapterResult, fillInput adapterRun inputType = Except.ok r)
    ∧ (∀ e : String, standardFillBody el = Except.error e →
        standardFill el = Except.ok { success := false, error := some e })
    ∧ (standardFillBody el = Except.ok { success := true, error := none }
        ∨ ∃ e : String, standardFillBody el = Except.error e)
    ∧ (∀ e : String, adapterRun (getAdapter inputType) = Except.error e →
        fillInput adapterRun inputType = Except.ok { success := false, error := some e }) := by
  have hbody : standardFillBody el = Except.ok { success := true, error := none }
      ∨ ∃ e : String, standardFillBody el = Except.error e := by
    unfold standardFillBody
    cases el.focusEl with
    | error e => exact Or.inr ⟨e, rfl⟩
    | ok u =>
      cases el.clearValue with
      | error e => exact Or.inr ⟨e, rfl⟩
      | ok u2 =>
        cases el.setValue with
        | error e => exact Or.inr ⟨e, rfl⟩
        | ok u3 =>
          cases el.dispatchInput with
          | error e => exact Or.inr ⟨e, rfl⟩
          | ok u4 => exact Or.inl rfl
  refine ⟨?_, ?_, ?_, hbody, ?_⟩
  · rcases hbody with hb | ⟨e, hb⟩
    · exact ⟨{ success := true, error := none }, by simp [standardFill, hb], by simp, by simp⟩
    · exact ⟨{ success := false, error := some e }, by simp [standardFill, hb], by simp,
        by simp⟩
  · cases har : adapterRun (getAdapter inputType) with
    | ok r => exact ⟨r, by simp [fillInput, har]⟩
    | error e => exact ⟨{ success := false, error := some e }, by simp [fillInput, har]⟩
  · intro e hb
    simp [standardFill, hb]
  · intro e har
    simp [fillInput, har]

def c10ThrowingElement : ElementOps :=
  { focusEl := Except.ok (), clearValue := Except.ok (),
    setValue := Except.error "Cannot set property value", dispatchInput := Except.ok () }

/-- C10 witness: a concrete element whose value setter throws; the
standard adapter converts the exception into a tagged failure
result. -/
theorem fill_never_throws_witness :
    standardFill c10ThrowingElement
      = Except.ok { success := false, error := some "Cannot set property value" } :=
  (fill_never_throws c10ThrowingElement (fun _ => standardFill c10ThrowingElement)
      "standard").2.2.1 "Cannot set property value" rfl

end JobLander
